import Mathlib

/-!
Verification of the credential-pool scheduler of `gemini-balance`.

Each definition below is a shallow embedding of a function of the source
tree (`src/app/...`); timestamps and sorted-set scores are modelled as
rationals, Redis sets as lists of strings (membership up to duplication),
and Redis sorted sets as association lists from member to score.
-/

/-- State of the coordination store restricted to the four credential sets
(`gemini:full_token_keys`, `gemini:empty_token_keys`, `gemini:retired_keys`,
`gemini:quarantine_keys`). -/
structure StoreState where
  fullTokens : List String
  emptyTokens : List (String × ℚ)
  retired : List String
  quarantined : List String
  deriving DecidableEq, Repr

/-- Redis `ZRANGEBYSCORE key min max`: the members whose score lies in
`[minScore, maxScore]` (both endpoints included). -/
def zrangebyscore (zset : List (String × ℚ)) (minScore maxScore : ℚ) : List String :=
  (zset.filter (fun p => decide (minScore ≤ p.2) && decide (p.2 ≤ maxScore))).map Prod.fst

/-- Redis `SADD`: add the members to the set, skipping ones already there. -/
def saddList (s : List String) (members : List String) : List String :=
  s ++ members.filter (fun m => !(s.contains m))

/-- Redis `ZREM`: remove every entry whose member occurs in `members`. -/
def zremList (zset : List (String × ℚ)) (members : List String) : List (String × ℚ) :=
  zset.filter (fun p => !(members.contains p.1))

/-- `activate_keys_from_empty_bucket` (src/app/scheduler/scheduled_tasks.py):
reads `zrangebyscore(EMPTY_TOKEN_KEYS, -1, now)` and, when non-empty, runs a
single pipeline `{sadd(FULL_TOKEN_KEYS, keys), zrem(EMPTY_TOKEN_KEYS, keys)}`.
No membership test against the quarantine set is performed. -/
def activate_keys_from_empty_bucket (st : StoreState) (now : ℚ) : StoreState :=
  let keys_to_activate := zrangebyscore st.emptyTokens (-1) now
  if keys_to_activate = [] then st
  else
    { st with
      fullTokens := saddList st.fullTokens keys_to_activate
      emptyTokens := zremList st.emptyTokens keys_to_activate }

/-- C1: For every tick of the key-activation worker, the set of credentials
added to HAS_TOKENS contains no member of QUARANTINED. Refuted by direct
evaluation of the embedded worker: on a store state holding credential "K"
both in QUARANTINED and in EMPTY with an expired cooldown score, the tick
adds "K" to HAS_TOKENS. -/
theorem c1_worker_readmits_quarantined_key :
    "K" ∈ (activate_keys_from_empty_bucket ⟨[], [("K", 0)], [], ["K"]⟩ 10).fullTokens ∧
    "K" ∈ (activate_keys_from_empty_bucket ⟨[], [("K", 0)], [], ["K"]⟩ 10).quarantined ∧
    "K" ∉ (⟨[], [("K", 0)], [], ["K"]⟩ : StoreState).fullTokens := by
  decide

/-- Phase of the activation worker inside one tick: between ticks, or holding
the list of ready keys read by `zrangebyscore` and not yet committed by the
pipeline (the two are separated by an `await` in the source). -/
inductive WorkerPhase
  | idle : WorkerPhase
  | readDone (ready : List String) : WorkerPhase
  deriving DecidableEq, Repr

/-- Combined state: coordination store plus the worker's local phase. -/
structure SysState where
  store : StoreState
  worker : WorkerPhase
  deriving DecidableEq, Repr

/-- Modelled from the spec: the atomic quarantine pipeline of §4.4
`record_failure` past the threshold —
`{set_remove(HAS_TOKENS), set_remove(EMPTY), set_add(QUARANTINED)}` — which
lives in the coordination-store scheduler, a component absent from `src/`
(only its callers appear there). -/
def quarantinePipeline (st : StoreState) (k : String) : StoreState :=
  { st with
    fullTokens := st.fullTokens.filter (fun x => !(x == k))
    emptyTokens := zremList st.emptyTokens [k]
    quarantined := saddList st.quarantined [k] }

/-- Modelled from the spec: the effect of §4.5 `acquire` on a credential whose
bucket runs out — `set_pop_random(HAS_TOKENS)` followed by
`sorted_set_add(EMPTY, {cred: score})` — again part of the coordination-store
scheduler missing from `src/`.  The two store operations are collapsed into
one step; this only removes interleavings and is conservative for
reachability. -/
def acquireDepletePipeline (st : StoreState) (k : String) (score : ℚ) : StoreState :=
  { st with
    fullTokens := st.fullTokens.filter (fun x => !(x == k))
    emptyTokens := st.emptyTokens ++ [(k, score)] }

/-- One interleaved step of the system: the worker's read, the worker's
commit pipeline (both from `activate_keys_from_empty_bucket` in
src/app/scheduler/scheduled_tasks.py, split at the `await` between the
`zrangebyscore` and the pipeline), or one of the scheduler's atomic
pipelines. -/
inductive SysStep : SysState → SysState → Prop
  | workerRead (s s' : SysState) (now : ℚ)
      (h : s.worker = .idle)
      (h2 : s' = ⟨s.store, .readDone (zrangebyscore s.store.emptyTokens (-1) now)⟩) :
      SysStep s s'
  | workerCommit (s s' : SysState) (ready : List String)
      (h : s.worker = .readDone ready)
      (h2 : s' = ⟨(if ready = [] then s.store
                   else { s.store with
                          fullTokens := saddList s.store.fullTokens ready
                          emptyTokens := zremList s.store.emptyTokens ready }), .idle⟩) :
      SysStep s s'
  | schedulerDeplete (s s' : SysState) (k : String) (score : ℚ)
      (hk : k ∈ s.store.fullTokens)
      (h2 : s' = ⟨acquireDepletePipeline s.store k score, s.worker⟩) :
      SysStep s s'
  | schedulerQuarantine (s s' : SysState) (k : String)
      (hk : k ∈ s.store.fullTokens ∨ k ∈ s.store.emptyTokens.map Prod.fst)
      (h2 : s' = ⟨quarantinePipeline s.store k, s.worker⟩) :
      SysStep s s'

/-- Startup state for a deployment with the single catalog-active credential
"K": loaded into HAS_TOKENS, worker between ticks. -/
def initState : SysState := ⟨⟨["K"], [], [], []⟩, .idle⟩

/-- C2: in every reachable state every credential belongs to at most one of
the four sets. Refuted: interleaving the worker's read, a quarantine
pipeline, and the worker's commit pipeline reaches a state where "K" is in
HAS_TOKENS and in QUARANTINED simultaneously, although every cross-set
mutation is a single atomic pipeline. -/
theorem c2_reachable_state_breaks_exclusivity :
    ∃ s : SysState, Relation.ReflTransGen SysStep initState s ∧
      "K" ∈ s.store.fullTokens ∧ "K" ∈ s.store.quarantined := by
  refine ⟨⟨⟨["K"], [], [], ["K"]⟩, .idle⟩, ?_, by decide, by decide⟩
  have h1 : SysStep initState ⟨⟨[], [("K", 0)], [], []⟩, .idle⟩ :=
    SysStep.schedulerDeplete _ _ "K" 0 (by decide) (by decide)
  have h2 : SysStep ⟨⟨[], [("K", 0)], [], []⟩, .idle⟩
      ⟨⟨[], [("K", 0)], [], []⟩, .readDone ["K"]⟩ :=
    SysStep.workerRead _ _ 10 (by decide) (by decide)
  have h3 : SysStep ⟨⟨[], [("K", 0)], [], []⟩, .readDone ["K"]⟩
      ⟨⟨[], [], [], ["K"]⟩, .readDone ["K"]⟩ :=
    SysStep.schedulerQuarantine _ _ "K" (by decide) (by decide)
  have h4 : SysStep ⟨⟨[], [], [], ["K"]⟩, .readDone ["K"]⟩
      ⟨⟨["K"], [], [], ["K"]⟩, .idle⟩ :=
    SysStep.workerCommit _ _ ["K"] (by decide) (by decide)
  exact Relation.ReflTransGen.tail
    (Relation.ReflTransGen.tail
      (Relation.ReflTransGen.tail
        (Relation.ReflTransGen.tail Relation.ReflTransGen.refl h1) h2) h3) h4

/-- Trigger of an APScheduler job as registered by the source. -/
inductive TriggerSpec
  | intervalSeconds (n : Nat)
  | cron (hour minute second : Nat)
  deriving DecidableEq, Repr

/-- One registered job: its id and trigger. -/
structure JobSpec where
  jobId : String
  trigger : TriggerSpec
  deriving DecidableEq, Repr

/-- A configured scheduler: its timezone and job list. -/
structure SchedulerConfig where
  timezone : String
  jobs : List JobSpec
  deriving DecidableEq, Repr

/-- `setup_scheduler` (src/app/scheduler/scheduled_tasks.py): constructs
`AsyncIOScheduler(timezone=str(settings.TIMEZONE))` and registers four jobs.
None of the `add_job` calls passes an explicit timezone, so per APScheduler
semantics every cron trigger is evaluated in the scheduler's timezone. -/
def setup_scheduler (tz : String) : SchedulerConfig :=
  { timezone := tz
    jobs := [⟨"activate_keys_job", .intervalSeconds 1⟩,
             ⟨"delete_old_error_logs_job", .cron 3 0 0⟩,
             ⟨"delete_old_request_logs_job", .cron 3 5 0⟩,
             ⟨"reset_retired_keys_job", .cron 0 0 5⟩] }

/-- The timezone in which a job's trigger is evaluated: the scheduler's
timezone, since no job is registered with one of its own. -/
def jobEffectiveTimezone (cfg : SchedulerConfig) (_j : JobSpec) : String :=
  cfg.timezone

/-- Default of the `TIMEZONE` option (src/app/config/config.py line 258). -/
def defaultTIMEZONE : String := "Asia/Shanghai"

/-- C4: the daily retired-keys cron job is evaluated in UTC regardless of the
configured `TIMEZONE`, which is informational only. Refuted by evaluating the
embedded `setup_scheduler`: the job's trigger runs in the scheduler timezone,
which is `settings.TIMEZONE` (default "Asia/Shanghai", not "UTC"), and
changing `TIMEZONE` changes the evaluation timezone. -/
theorem c4_daily_reset_runs_in_configured_timezone :
    (∃ j ∈ (setup_scheduler defaultTIMEZONE).jobs,
        j.jobId = "reset_retired_keys_job" ∧ j.trigger = .cron 0 0 5 ∧
        jobEffectiveTimezone (setup_scheduler defaultTIMEZONE) j = "Asia/Shanghai") ∧
    jobEffectiveTimezone (setup_scheduler defaultTIMEZONE)
        ⟨"reset_retired_keys_job", .cron 0 0 5⟩ ≠ "UTC" ∧
    jobEffectiveTimezone (setup_scheduler "Asia/Shanghai")
        ⟨"reset_retired_keys_job", .cron 0 0 5⟩ ≠
      jobEffectiveTimezone (setup_scheduler "UTC")
        ⟨"reset_retired_keys_job", .cron 0 0 5⟩ := by
  decide

/-- C8 counterexample: the tick does not promote exactly the credentials with
cooldown score `≤ now`: the source reads `zrangebyscore(EMPTY, -1, now)`, not
`(-inf, now)`, so a credential with score `-2 ≤ now` is left in EMPTY. -/
theorem c8_score_below_neg_one_not_promoted :
    ((-2 : ℚ) ≤ 10) ∧
    activate_keys_from_empty_bucket ⟨[], [("K", -2)], [], []⟩ 10 =
      ⟨[], [("K", -2)], [], []⟩ := by
  decide

theorem mem_saddList {k : String} {s ms : List String} :
    k ∈ saddList s ms ↔ k ∈ s ∨ k ∈ ms := by
  by_cases hk : k ∈ s
  · simp [saddList, hk]
  · simp [saddList, hk, List.mem_filter, List.elem_eq_mem, List.contains]

theorem mem_zremList {p : String × ℚ} {z : List (String × ℚ)} {ms : List String} :
    p ∈ zremList z ms ↔ p ∈ z ∧ p.1 ∉ ms := by
  simp [zremList, List.mem_filter, List.elem_eq_mem, List.contains]

theorem mem_zrangebyscore {k : String} {z : List (String × ℚ)} {lo hi : ℚ} :
    k ∈ zrangebyscore z lo hi ↔ ∃ sc, (k, sc) ∈ z ∧ lo ≤ sc ∧ sc ≤ hi := by
  simp only [zrangebyscore, List.mem_map, List.mem_filter, Bool.and_eq_true,
    decide_eq_true_eq]
  constructor
  · rintro ⟨⟨a, sc⟩, ⟨hmem, h1, h2⟩, rfl⟩
    exact ⟨sc, hmem, h1, h2⟩
  · rintro ⟨sc, hmem, h1, h2⟩
    exact ⟨(k, sc), ⟨hmem, h1, h2⟩, rfl⟩

theorem eq_snd_of_nodup_keys {l : List (String × ℚ)}
    (h : (l.map Prod.fst).Nodup) {k : String} {v1 v2 : ℚ}
    (h1 : (k, v1) ∈ l) (h2 : (k, v2) ∈ l) : v1 = v2 := by
  induction l with
  | nil => cases h1
  | cons p rest ih =>
    rw [List.map_cons, List.nodup_cons] at h
    rw [List.mem_cons] at h1 h2
    rcases h1 with h1 | h1'
    · rcases h2 with h2 | h2'
      · rw [← h1] at h2; exact (Prod.mk.injEq .. ▸ h2).2.symm
      · exfalso
        exact h.1 (h1 ▸ List.mem_map.mpr ⟨(k, v2), h2', rfl⟩)
    · rcases h2 with h2 | h2'
      · exfalso
        exact h.1 (h2 ▸ List.mem_map.mpr ⟨(k, v1), h1', rfl⟩)
      · exact ih h.2 h1' h2'

/-- C8 (amended): each tick promotes exactly the credentials in EMPTY whose
cooldown score lies in `[-1, now]` (the source's `zrangebyscore(EMPTY, -1,
now)`, rather than `(-inf, now]` as claimed), removing them from EMPTY in the
same pipeline (modelled as the single-step update), and the activation job's
interval is 1 second, hence at most 1 second.  The `Nodup` hypothesis states
that EMPTY has the unique members of a Redis sorted set. -/
theorem c8_tick_promotes_exactly_in_range (st : StoreState) (now : ℚ)
    (hkeys : (st.emptyTokens.map Prod.fst).Nodup) :
    (∀ k, k ∈ (activate_keys_from_empty_bucket st now).fullTokens ↔
        (k ∈ st.fullTokens ∨ ∃ sc, (k, sc) ∈ st.emptyTokens ∧ -1 ≤ sc ∧ sc ≤ now)) ∧
    (∀ pk psc, (pk, psc) ∈ (activate_keys_from_empty_bucket st now).emptyTokens ↔
        ((pk, psc) ∈ st.emptyTokens ∧ ¬(-1 ≤ psc ∧ psc ≤ now))) ∧
    ((⟨"activate_keys_job", .intervalSeconds 1⟩ : JobSpec) ∈
        (setup_scheduler defaultTIMEZONE).jobs ∧ 1 ≤ 1) := by
  refine ⟨?_, ?_, by decide, le_refl 1⟩
  all_goals
    by_cases hr : zrangebyscore st.emptyTokens (-1) now = []
  · have hact : activate_keys_from_empty_bucket st now = st := by
      simp [activate_keys_from_empty_bucket, hr]
    rw [hact]
    intro k
    constructor
    · exact Or.inl
    · rintro (hk | ⟨sc, hsc, hb1, hb2⟩)
      · exact hk
      · have : k ∈ zrangebyscore st.emptyTokens (-1) now :=
          mem_zrangebyscore.mpr ⟨sc, hsc, hb1, hb2⟩
        rw [hr] at this
        cases this
  · have hact : activate_keys_from_empty_bucket st now =
        { st with
          fullTokens := saddList st.fullTokens (zrangebyscore st.emptyTokens (-1) now)
          emptyTokens := zremList st.emptyTokens (zrangebyscore st.emptyTokens (-1) now) } := by
      simp [activate_keys_from_empty_bucket, hr]
    rw [hact]
    intro k
    rw [show ({ st with
          fullTokens := saddList st.fullTokens (zrangebyscore st.emptyTokens (-1) now)
          emptyTokens := zremList st.emptyTokens (zrangebyscore st.emptyTokens (-1) now) } :
        StoreState).fullTokens =
        saddList st.fullTokens (zrangebyscore st.emptyTokens (-1) now) from rfl]
    rw [mem_saddList, mem_zrangebyscore]
  · have hact : activate_keys_from_empty_bucket st now = st := by
      simp [activate_keys_from_empty_bucket, hr]
    rw [hact]
    intro pk psc
    constructor
    · intro hp
      refine ⟨hp, fun hb => ?_⟩
      have : pk ∈ zrangebyscore st.emptyTokens (-1) now :=
        mem_zrangebyscore.mpr ⟨psc, hp, hb.1, hb.2⟩
      rw [hr] at this
      cases this
    · exact And.left
  · have hact : activate_keys_from_empty_bucket st now =
        { st with
          fullTokens := saddList st.fullTokens (zrangebyscore st.emptyTokens (-1) now)
          emptyTokens := zremList st.emptyTokens (zrangebyscore st.emptyTokens (-1) now) } := by
      simp [activate_keys_from_empty_bucket, hr]
    rw [hact]
    intro pk psc
    rw [show ({ st with
          fullTokens := saddList st.fullTokens (zrangebyscore st.emptyTokens (-1) now)
          emptyTokens := zremList st.emptyTokens (zrangebyscore st.emptyTokens (-1) now) } :
        StoreState).emptyTokens =
        zremList st.emptyTokens (zrangebyscore st.emptyTokens (-1) now) from rfl]
    rw [mem_zremList]
    constructor
    · rintro ⟨hp, hnr⟩
      exact ⟨hp, fun hb => hnr (mem_zrangebyscore.mpr ⟨psc, hp, hb.1, hb.2⟩)⟩
    · rintro ⟨hp, hnb⟩
      refine ⟨hp, fun hin => ?_⟩
      obtain ⟨sc, hsc, hb1, hb2⟩ := mem_zrangebyscore.mp hin
      have hscps : sc = psc := eq_snd_of_nodup_keys hkeys hsc hp
      rw [hscps] at hb1 hb2
      exact hnb ⟨hb1, hb2⟩

/-- Witness for C8 (amended) at a concrete store. -/
theorem c8_tick_promotes_exactly_in_range_witness :
    "B" ∈ (activate_keys_from_empty_bucket
      ⟨["A"], [("B", 5), ("C", 200)], [], []⟩ 100).fullTokens ∧
    ("C", 200) ∈ (activate_keys_from_empty_bucket
      ⟨["A"], [("B", 5), ("C", 200)], [], []⟩ 100).emptyTokens :=
  ⟨((c8_tick_promotes_exactly_in_range ⟨["A"], [("B", 5), ("C", 200)], [], []⟩ 100
      (by decide)).1 "B").mpr (Or.inr ⟨5, by decide, by decide, by decide⟩),
   ((c8_tick_promotes_exactly_in_range ⟨["A"], [("B", 5), ("C", 200)], [], []⟩ 100
      (by decide)).2.1 "C" 200).mpr ⟨by decide, by decide⟩⟩

/-- Whether the character list starts with the given pattern. -/
def charListStartsWith : List Char → List Char → Bool
  | _, [] => true
  | [], _ :: _ => false
  | c :: cs, p :: ps => c == p && charListStartsWith cs ps

/-- Whether the pattern occurs as a contiguous run of the character list. -/
def charListContains (l pat : List Char) : Bool :=
  match l with
  | [] => pat.isEmpty
  | _ :: rest => charListStartsWith l pat || charListContains rest pat

/-- Python's `pat in s` on strings: substring containment. -/
def containsSubstring (s pat : String) : Bool :=
  charListContains s.data pat.data

/-- Result of `CircuitBreakerMiddleware.dispatch`: the request is rejected
(raising `ServiceUnavailableError`), recording the TTL when the breaker flag
was newly set, or forwarded to `call_next`. -/
inductive DispatchResult
  | rejected (setFlagTTL : Option Nat)
  | forwarded
  deriving DecidableEq, Repr

/-- `CircuitBreakerMiddleware.dispatch` (src/app/middleware/circuit_breaker.py),
decision logic only: `path` is the request path, `breakerTripped` whether the
`global_breaker_tripped` key exists, `counter` the value stored under
`global_gemini_failures_minute` (`none` when absent). -/
def circuit_breaker_dispatch (path : String) (breakerTripped : Bool)
    (counter : Option Nat) (threshold cooldownSeconds : Nat) : DispatchResult :=
  if containsSubstring path "/gemini/" then
    if breakerTripped then .rejected none
    else
      match counter with
      | some v => if threshold < v then .rejected (some cooldownSeconds) else .forwarded
      | none => .forwarded
  else .forwarded

/-- C6: on the upstream-proxy (gemini) routes, a present breaker flag rejects
the request; otherwise a counter strictly above `GLOBAL_FAILURE_THRESHOLD`
sets the flag with TTL `GLOBAL_COOLDOWN_SECONDS` and rejects; otherwise the
request is forwarded. -/
theorem c6_circuit_breaker_dispatch_branches (path : String) (breakerTripped : Bool)
    (counter : Option Nat) (threshold cooldownSeconds : Nat)
    (hpath : containsSubstring path "/gemini/" = true) :
    (breakerTripped = true →
      circuit_breaker_dispatch path breakerTripped counter threshold cooldownSeconds =
        .rejected none) ∧
    (breakerTripped = false → threshold < counter.getD 0 →
      circuit_breaker_dispatch path breakerTripped counter threshold cooldownSeconds =
        .rejected (some cooldownSeconds)) ∧
    (breakerTripped = false → counter.getD 0 ≤ threshold →
      circuit_breaker_dispatch path breakerTripped counter threshold cooldownSeconds =
        .forwarded) := by
  refine ⟨fun hb => ?_, fun hb hc => ?_, fun hb hc => ?_⟩
  · simp [circuit_breaker_dispatch, hpath, hb]
  · cases counter with
    | none => simp at hc
    | some v => simp_all [circuit_breaker_dispatch]
  · cases counter with
    | none => simp [circuit_breaker_dispatch, hpath, hb]
    | some v => simp_all [circuit_breaker_dispatch, Nat.not_lt.mpr hc]

/-- Witness for C6 at concrete inputs: a tripped flag rejects, a counter of 51
against threshold 50 trips with TTL 60, and a counter of 50 forwards. -/
theorem c6_circuit_breaker_dispatch_branches_witness :
    circuit_breaker_dispatch "/gemini/v1beta/models" true (some 0) 50 60 =
      .rejected none ∧
    circuit_breaker_dispatch "/gemini/v1beta/models" false (some 51) 50 60 =
      .rejected (some 60) ∧
    circuit_breaker_dispatch "/gemini/v1beta/models" false (some 50) 50 60 =
      .forwarded :=
  ⟨(c6_circuit_breaker_dispatch_branches "/gemini/v1beta/models" true (some 0) 50 60
      (by decide)).1 rfl,
   (c6_circuit_breaker_dispatch_branches "/gemini/v1beta/models" false (some 51) 50 60
      (by decide)).2.1 rfl (by decide),
   (c6_circuit_breaker_dispatch_branches "/gemini/v1beta/models" false (some 50) 50 60
      (by decide)).2.2 rfl (by decide)⟩

/-- `GeminiApiClient.generate_content` error path
(src/app/service/client/api_client.py): on an upstream HTTP error with this
status and body, whether `key_manager.handle_api_failure` is invoked for the
key before `DownstreamApiError` is raised — true for a 400 whose body contains
`API_KEY_INVALID`, and for every 403. -/
def api_client_penalizes (status : Nat) (body : String) : Bool :=
  (status == 400 && containsSubstring body "API_KEY_INVALID") || status == 403

/-- Outcome of one iteration of the retry loop: the upstream call succeeded,
it raised `DownstreamApiError (status, body)`, or `get_key_with_token` raised
`ServiceUnavailableError` because no key was available. -/
inductive AttemptOutcome
  | success
  | apiError (status : Nat) (body : String)
  | noKeys
  deriving DecidableEq, Repr

/-- How `GeminiChatService.generate_content` terminates. -/
inductive DriverResult
  | ok
  | clientErrorRaised (status : Nat)
  | noCapacity
  | allRetriesExhausted
  deriving DecidableEq, Repr

/-- Observable trace of one run of the retry loop: its result, the number of
loop iterations executed, and the attempt indexes after which the loop called
`key_manager.handle_api_failure`. -/
structure DriverTrace where
  result : DriverResult
  attemptsMade : Nat
  loopPenalized : List Nat
  deriving DecidableEq, Repr

/-- The retry loop's client-error test:
`400 <= e.status_code < 500 and e.status_code != 429`. -/
def is_client_error (status : Nat) : Bool :=
  (400 ≤ status && status < 500) && status != 429

/-- Body of `GeminiChatService.generate_content`'s `for attempt in
range(MAX_RETRIES)` loop (src/app/service/chat/gemini_chat_service.py):
a success returns; a `DownstreamApiError` with a 4xx non-429 status re-raises;
any other `DownstreamApiError` penalizes the key and continues;
`ServiceUnavailableError` from key acquisition re-raises; an exhausted range
raises the final `ServiceUnavailableError` ("all retry attempts failed"). -/
def retry_loop_aux (outcome : Nat → AttemptOutcome) :
    Nat → List Nat → Nat → DriverTrace
  | i, pen, 0 => ⟨.allRetriesExhausted, i, pen.reverse⟩
  | i, pen, fuel + 1 =>
    match outcome i with
    | .success => ⟨.ok, i + 1, pen.reverse⟩
    | .noKeys => ⟨.noCapacity, i + 1, pen.reverse⟩
    | .apiError s _ =>
      if is_client_error s then ⟨.clientErrorRaised s, i + 1, pen.reverse⟩
      else retry_loop_aux outcome (i + 1) (i :: pen) fuel

/-- `GeminiChatService.generate_content` as a function of the per-attempt
outcomes. -/
def generate_content_retry (maxRetries : Nat) (outcome : Nat → AttemptOutcome) :
    DriverTrace :=
  retry_loop_aux outcome 0 [] maxRetries

theorem retry_loop_aux_attempts_le (outcome : Nat → AttemptOutcome) :
    ∀ (fuel i : Nat) (pen : List Nat),
      (retry_loop_aux outcome i pen fuel).attemptsMade ≤ i + fuel := by
  intro fuel
  induction fuel with
  | zero => intro i pen; simp [retry_loop_aux]
  | succ f ih =>
    intro i pen
    rw [retry_loop_aux]
    cases outcome i with
    | success => simp
    | noKeys => simp
    | apiError s b =>
      by_cases hc : is_client_error s = true
      · simp [hc]
      · simp only [hc, Bool.false_eq_true, if_false]
        have := ih (i + 1) (i :: pen)
        omega

theorem retry_loop_aux_all_retryable (outcome : Nat → AttemptOutcome) :
    ∀ (fuel i : Nat) (pen : List Nat),
      (∀ j, i ≤ j → j < i + fuel →
        ∃ s b, outcome j = .apiError s b ∧ is_client_error s = false) →
      retry_loop_aux outcome i pen fuel =
        ⟨.allRetriesExhausted, i + fuel, pen.reverse ++ List.range' i fuel⟩ := by
  intro fuel
  induction fuel with
  | zero => intro i pen _; simp [retry_loop_aux, List.range']
  | succ f ih =>
    intro i pen h
    obtain ⟨s, b, hout, hcl⟩ := h i (le_refl i) (by omega)
    rw [retry_loop_aux, hout]
    simp only [hcl, Bool.false_eq_true, if_false]
    rw [ih (i + 1) (i :: pen) (fun j h1 h2 => h j (by omega) (by omega))]
    rw [List.range'_succ]
    simp
    omega

/-- C7: the retry driver makes at most `MAX_RETRIES` attempts, and when every
attempt fails with a retryable (429 or 5xx) error it terminates with the
all-retries-exhausted `ServiceUnavailableError` after exactly `MAX_RETRIES`
attempts. -/
theorem c7_retry_budget_and_exhaustion (maxRetries : Nat)
    (outcome : Nat → AttemptOutcome) :
    (generate_content_retry maxRetries outcome).attemptsMade ≤ maxRetries ∧
    ((∀ j, j < maxRetries → ∃ s b, outcome j = .apiError s b ∧ (s = 429 ∨ 500 ≤ s)) →
      (generate_content_retry maxRetries outcome).result = .allRetriesExhausted ∧
      (generate_content_retry maxRetries outcome).attemptsMade = maxRetries) := by
  constructor
  · have h := retry_loop_aux_attempts_le outcome maxRetries 0 []
    simpa [generate_content_retry] using h
  · intro h
    have hh : ∀ j, 0 ≤ j → j < 0 + maxRetries →
        ∃ s b, outcome j = .apiError s b ∧ is_client_error s = false := by
      intro j _ hj
      obtain ⟨s, b, hout, hs⟩ := h j (by omega)
      refine ⟨s, b, hout, ?_⟩
      rcases hs with rfl | hs
      · simp [is_client_error]
      · have : decide (s < 500) = false := by simp; omega
        simp [is_client_error, this]
    have h2 := retry_loop_aux_all_retryable outcome maxRetries 0 [] hh
    rw [generate_content_retry, h2]
    exact ⟨rfl, by simp⟩

/-- Witness for C7 with three attempts that all return upstream 500s. -/
theorem c7_retry_budget_and_exhaustion_witness :
    (generate_content_retry 3 (fun _ => .apiError 500 "err")).result =
      .allRetriesExhausted ∧
    (generate_content_retry 3 (fun _ => .apiError 500 "err")).attemptsMade = 3 :=
  (c7_retry_budget_and_exhaustion 3 (fun _ => .apiError 500 "err")).2
    (fun _ _ => ⟨500, "err", rfl, Or.inr (le_refl 500)⟩)

/-- C5 counterexample: 403 is a 4xx status other than 429, yet the api client
invokes the key manager's failure handler for the credential before raising
`DownstreamApiError`, so the credential is penalized. -/
theorem c5_403_penalizes_credential :
    is_client_error 403 = true ∧ api_client_penalizes 403 "Forbidden" = true := by
  decide

theorem retry_loop_aux_first_client (outcome : Nat → AttemptOutcome)
    (s : Nat) (b : String) :
    ∀ (i fuel a : Nat) (pen : List Nat), i < fuel →
      outcome (a + i) = .apiError s b → is_client_error s = true →
      (∀ j, j < i → ∃ s' b', outcome (a + j) = .apiError s' b' ∧
        is_client_error s' = false) →
      retry_loop_aux outcome a pen fuel =
        ⟨.clientErrorRaised s, a + i + 1, pen.reverse ++ List.range' a i⟩ := by
  intro i
  induction i with
  | zero =>
    intro fuel a pen hf hout hcl _
    cases fuel with
    | zero => omega
    | succ f =>
      rw [retry_loop_aux]
      rw [show a + 0 = a from rfl] at hout
      rw [hout]
      simp [hcl]
  | succ i ih =>
    intro fuel a pen hf hout hcl hprior
    cases fuel with
    | zero => omega
    | succ f =>
      obtain ⟨s', b', hout0, hcl0⟩ := hprior 0 (by omega)
      rw [retry_loop_aux]
      rw [show a + 0 = a from rfl] at hout0
      rw [hout0]
      simp only [hcl0, Bool.false_eq_true, if_false]
      rw [ih f (a + 1) (a :: pen) (by omega)
        (by rw [show a + 1 + i = a + (i + 1) from by omega]; exact hout) hcl
        (fun j hj => by
          rw [show a + 1 + j = a + (j + 1) from by omega]
          exact hprior (j + 1) (by omega))]
      rw [List.range'_succ]
      simp
      omega

/-- C5 (amended): a 4xx non-429 upstream failure is raised to the caller
immediately — the run ends at that attempt with no further attempt and the
retry loop does not penalize the credential — and, unless the status is 403
or the status is 400 with a body marking `API_KEY_INVALID`, the api client
does not penalize it either. -/
theorem c5_client_error_raised_unpenalized (maxRetries : Nat)
    (outcome : Nat → AttemptOutcome) (i s : Nat) (b : String)
    (hi : i < maxRetries)
    (hout : outcome i = .apiError s b)
    (hcl : is_client_error s = true)
    (hprior : ∀ j, j < i → ∃ s' b', outcome j = .apiError s' b' ∧
      is_client_error s' = false) :
    (generate_content_retry maxRetries outcome).result = .clientErrorRaised s ∧
    (generate_content_retry maxRetries outcome).attemptsMade = i + 1 ∧
    i ∉ (generate_content_retry maxRetries outcome).loopPenalized ∧
    (s ≠ 403 → ¬(s = 400 ∧ containsSubstring b "API_KEY_INVALID" = true) →
      api_client_penalizes s b = false) := by
  have hrun := retry_loop_aux_first_client outcome s b i maxRetries 0 [] hi
    (by simpa using hout) hcl (by simpa using hprior)
  rw [generate_content_retry, hrun]
  refine ⟨rfl, by simp, ?_, ?_⟩
  · simp only [List.reverse_nil, List.nil_append, List.mem_range']
    rintro ⟨k, hk, hik⟩
    omega
  · intro h403 h400
    by_cases h4 : s = 400
    · subst h4
      cases hc : containsSubstring b "API_KEY_INVALID" with
      | true => exact absurd ⟨rfl, hc⟩ h400
      | false => simp [api_client_penalizes, hc]
    · simp [api_client_penalizes, h4, h403]

/-- Witness for C5 (amended): one prior 500, then a 404; the run raises the
404 after the second attempt, penalizing only the first. -/
theorem c5_client_error_raised_unpenalized_witness :
    (generate_content_retry 3
      (fun j => if j = 0 then .apiError 500 "e" else .apiError 404 "missing")).result =
      .clientErrorRaised 404 ∧
    (generate_content_retry 3
      (fun j => if j = 0 then .apiError 500 "e" else .apiError 404 "missing")).attemptsMade =
      2 ∧
    api_client_penalizes 404 "missing" = false := by
  have h := c5_client_error_raised_unpenalized 3
    (fun j => if j = 0 then .apiError 500 "e" else .apiError 404 "missing")
    1 404 "missing" (by omega) (by simp) (by decide)
    (fun j hj => by
      have : j = 0 := by omega
      subst this
      exact ⟨500, "e", by simp, by decide⟩)
  exact ⟨h.1, h.2.1, h.2.2.2 (by omega) (by simp)⟩

/-- A store value carrying a TTL, as `global_gemini_failures_minute` does. -/
structure RollingCounter where
  value : Option Nat
  ttlSeconds : Option Nat
  deriving DecidableEq, Repr

/-- Store primitive `incr_with_ttl`: increment (0 when absent) and set the
TTL. -/
def incr_with_ttl (c : RollingCounter) (ttl : Nat) : RollingCounter :=
  ⟨some (c.value.getD 0 + 1), some ttl⟩

/-- Modelled from the spec: the Retry Driver's 5xx observation. The code that
increments `global_gemini_failures_minute` lives in the coordination-store
scheduler's failure path, a component absent from `src/` (the middleware
under src/ only reads the counter); per §4.8 the Retry Driver increments the
counter on each 5xx observed, and per §6 the counter's TTL is 60 s. -/
def retry_driver_observe_failure (status : Nat) (c : RollingCounter) :
    RollingCounter :=
  if 500 ≤ status then incr_with_ttl c 60 else c

/-- C3: after each failed attempt with status ≥ 500, the stored value of the
rolling failure counter (TTL 60 s) is one greater than before the attempt. -/
theorem c3_counter_incremented_on_5xx (status : Nat) (c : RollingCounter)
    (h : 500 ≤ status) :
    (retry_driver_observe_failure status c).value = some (c.value.getD 0 + 1) ∧
    (retry_driver_observe_failure status c).ttlSeconds = some 60 := by
  simp [retry_driver_observe_failure, h, incr_with_ttl]

/-- Witness for C3: a 503 observed over a counter holding 4 stores 5. -/
theorem c3_counter_incremented_on_5xx_witness :
    (retry_driver_observe_failure 503 ⟨some 4, some 30⟩).value = some 5 ∧
    (retry_driver_observe_failure 503 ⟨some 4, some 30⟩).ttlSeconds = some 60 :=
  c3_counter_incremented_on_5xx 503 ⟨some 4, some 30⟩ (by omega)

/-- Python `dict[key] = v`: replace the binding or append it. -/
def assocSet {β : Type} : List (String × β) → String → β → List (String × β)
  | [], k, v => [(k, v)]
  | (k', v') :: rest, k, v =>
    if k' = k then (k, v) :: rest else (k', v') :: assocSet rest k v

/-- Python `del dict[key]`. -/
def assocErase {β : Type} (l : List (String × β)) (k : String) : List (String × β) :=
  l.filter (fun p => !(p.1 == k))


theorem lookup_assocSet_self {β : Type} (l : List (String × β)) (k : String) (v : β) :
    (assocSet l k v).lookup k = some v := by
  induction l with
  | nil => simp [assocSet, List.lookup]
  | cons p rest ih =>
    obtain ⟨k', v'⟩ := p
    by_cases h : k' = k
    · simp [assocSet, h, List.lookup]
    · have hbeq : (k == k') = false := by
        simpa using Ne.symm h
      simp [assocSet, h, List.lookup, hbeq, ih]

theorem lookup_assocErase_self {β : Type} (l : List (String × β)) (k : String) :
    (assocErase l k).lookup k = none := by
  induction l with
  | nil => rfl
  | cons p rest ih =>
    obtain ⟨k', v'⟩ := p
    by_cases h : k' = k
    · simpa [assocErase, h] using ih
    · have hbeq : (k == k') = false := by
        simpa using Ne.symm h
      simpa [assocErase, List.lookup, h, hbeq] using ih

/-- In-process state of `CooldownManager`
(src/app/service/key/cooldown_manager.py): per-key cooldown deadline
(`key_cooldown_until`, unix seconds), per-key cooldown level
(`key_cooldown_level`), and the configured
`COOLDOWN_DURATIONS_MINUTES` list. -/
structure CooldownManager where
  key_cooldown_until : List (String × ℚ)
  key_cooldown_level : List (String × Nat)
  cooldown_durations_minutes : List Nat
  deriving DecidableEq, Repr

/-- `CooldownManager.handle_429_failure`: reads the key's level (0 when
absent), indexes the duration list (`none` models Python's `IndexError`),
stores deadline `now + minutes * 60`, and advances the level to
`(level + 1) % len(durations)`. -/
def handle_429_failure (cm : CooldownManager) (api_key : String) (now : ℚ) :
    Option CooldownManager :=
  let current_level := (cm.key_cooldown_level.lookup api_key).getD 0
  match cm.cooldown_durations_minutes.get? current_level with
  | none => none
  | some cooldown_minutes =>
    some { cm with
      key_cooldown_until :=
        assocSet cm.key_cooldown_until api_key (now + (cooldown_minutes : ℚ) * 60)
      key_cooldown_level :=
        assocSet cm.key_cooldown_level api_key
          ((current_level + 1) % cm.cooldown_durations_minutes.length) }

/-- `CooldownManager.is_key_in_cooldown`: truthiness of the stored deadline
(`if cooldown_until and time.time() < cooldown_until`) is modelled as
`d ≠ 0`; a present, truthy, but expired deadline is deleted and the level
kept. Returns the boolean plus the updated state. -/
def is_key_in_cooldown (cm : CooldownManager) (api_key : String) (now : ℚ) :
    Bool × CooldownManager :=
  match cm.key_cooldown_until.lookup api_key with
  | none => (false, cm)
  | some d =>
    if d ≠ 0 ∧ now < d then (true, cm)
    else if d ≠ 0 then
      (false, { cm with key_cooldown_until := assocErase cm.key_cooldown_until api_key })
    else (false, cm)

/-- C9: `handle_429_failure` sets the deadline to now plus
`COOLDOWN_DURATIONS_MINUTES[level]` minutes for the key's current level
(0 when never cooled), advances the stored level to
`(level + 1) % len(COOLDOWN_DURATIONS_MINUTES)` (so past the longest tier it
wraps to 0), and afterwards `is_key_in_cooldown` returns true exactly while
the time is before the deadline and, on expiry, deletes the deadline while
preserving the level map. -/
theorem c9_cooldown_handle_and_check (cm : CooldownManager) (k : String) (now : ℚ)
    (m : Nat) (hnow : 0 < now)
    (hm : cm.cooldown_durations_minutes.get?
      ((cm.key_cooldown_level.lookup k).getD 0) = some m) :
    ∃ cm', handle_429_failure cm k now = some cm' ∧
      cm'.key_cooldown_until.lookup k = some (now + (m : ℚ) * 60) ∧
      cm'.key_cooldown_level.lookup k =
        some (((cm.key_cooldown_level.lookup k).getD 0 + 1) %
          cm.cooldown_durations_minutes.length) ∧
      (∀ t, (is_key_in_cooldown cm' k t).1 = true ↔ t < now + (m : ℚ) * 60) ∧
      (∀ t, ¬ t < now + (m : ℚ) * 60 →
        (is_key_in_cooldown cm' k t).2.key_cooldown_until.lookup k = none ∧
        (is_key_in_cooldown cm' k t).2.key_cooldown_level = cm'.key_cooldown_level) := by
  have hdpos : (0 : ℚ) < now + (m : ℚ) * 60 := by
    have h60 : (0 : ℚ) ≤ (m : ℚ) * 60 := by positivity
    linarith
  have hrun : handle_429_failure cm k now =
      some { cm with
        key_cooldown_until := assocSet cm.key_cooldown_until k (now + (m : ℚ) * 60)
        key_cooldown_level := assocSet cm.key_cooldown_level k
          (((cm.key_cooldown_level.lookup k).getD 0 + 1) %
            cm.cooldown_durations_minutes.length) } := by
    simp only [handle_429_failure, hm]
  refine ⟨_, hrun, lookup_assocSet_self .., lookup_assocSet_self .., ?_, ?_⟩
  · intro t
    by_cases ht : t < now + (m : ℚ) * 60
    · simp [is_key_in_cooldown, lookup_assocSet_self, hdpos.ne', ht]
    · simp [is_key_in_cooldown, lookup_assocSet_self, hdpos.ne', ht]
  · intro t ht
    have hstep : is_key_in_cooldown
        { cm with
          key_cooldown_until := assocSet cm.key_cooldown_until k (now + (m : ℚ) * 60)
          key_cooldown_level := assocSet cm.key_cooldown_level k
            (((cm.key_cooldown_level.lookup k).getD 0 + 1) %
              cm.cooldown_durations_minutes.length) } k t =
        (false, { cm with
          key_cooldown_until :=
            assocErase (assocSet cm.key_cooldown_until k (now + (m : ℚ) * 60)) k
          key_cooldown_level := assocSet cm.key_cooldown_level k
            (((cm.key_cooldown_level.lookup k).getD 0 + 1) %
              cm.cooldown_durations_minutes.length) }) := by
      simp [is_key_in_cooldown, lookup_assocSet_self, hdpos.ne', ht]
    rw [hstep]
    exact ⟨lookup_assocErase_self .., rfl⟩

/-- Witness for C9: durations [5, 10, 60] minutes, fresh key, a 429 at
t = 100: deadline 400 and next level 1. -/
theorem c9_cooldown_handle_and_check_witness :
    ∃ cm', handle_429_failure ⟨[], [], [5, 10, 60]⟩ "K" 100 = some cm' ∧
      cm'.key_cooldown_until.lookup "K" = some 400 ∧
      cm'.key_cooldown_level.lookup "K" = some 1 := by
  obtain ⟨cm', h1, h2, h3, -, -⟩ :=
    c9_cooldown_handle_and_check ⟨[], [], [5, 10, 60]⟩ "K" 100 5 (by norm_num) (by rfl)
  refine ⟨cm', h1, ?_, ?_⟩
  · rw [h2]; norm_num
  · rw [h3]; decide

/-- `KeyManager.is_key_valid` (src/app/service/key/key_manager.py): the key's
failure count is below `MAX_FAILURES`. -/
def is_key_valid (key_failure_counts : List (String × Nat)) (maxFailures : Nat)
    (key : String) : Bool :=
  decide ((key_failure_counts.lookup key).getD 0 < maxFailures)

/-- The `while` loop of `KeyManager.get_next_working_key`: `idx` is the cycle
position of the current key, `initial` the first key drawn; each iteration
returns the current key if valid, otherwise advances the cycle and returns
the next key when it equals `initial` (the cycle wrapped). The fuel argument
only bounds the recursion; `keys.length` is shown sufficient below. -/
def next_working_aux (keys : List String) (valid : String → Bool)
    (initial : String) : Nat → Nat → String
  | _, 0 => initial
  | idx, fuel + 1 =>
    let current := keys.getD (idx % keys.length) ""
    if valid current then current
    else
      let next := keys.getD ((idx + 1) % keys.length) ""
      if next = initial then next
      else next_working_aux keys valid initial (idx + 1) fuel

/-- `KeyManager.get_next_working_key` for a cycle positioned so that its next
element is `keys[i % len]`. -/
def get_next_working_key (keys : List String) (valid : String → Bool)
    (i : Nat) : String :=
  next_working_aux keys valid (keys.getD (i % keys.length) "") i keys.length

theorem getD_mem_of_ne_nil (keys : List String) (hne : keys ≠ []) (n : Nat) :
    keys.getD (n % keys.length) "" ∈ keys := by
  have hlen : 0 < keys.length := List.length_pos.mpr hne
  have hlt : n % keys.length < keys.length := Nat.mod_lt _ hlen
  rw [List.getD_eq_getElem?_getD, List.getElem?_eq_getElem hlt, Option.getD_some]
  apply List.getElem_mem

theorem next_working_aux_mem (keys : List String) (valid : String → Bool)
    (initial : String) (hin : initial ∈ keys) :
    ∀ (fuel idx : Nat), next_working_aux keys valid initial idx fuel ∈ keys := by
  intro fuel
  have hne : keys ≠ [] := List.ne_nil_of_mem hin
  induction fuel with
  | zero => intro idx; exact hin
  | succ f ih =>
    intro idx
    rw [next_working_aux]
    by_cases hv : valid (keys.getD (idx % keys.length) "") = true
    · rw [if_pos hv]; exact getD_mem_of_ne_nil keys hne idx
    · rw [if_neg hv]
      by_cases hw : keys.getD ((idx + 1) % keys.length) "" = initial
      · rw [if_pos hw, hw]; exact hin
      · rw [if_neg hw]; exact ih (idx + 1)

theorem next_working_aux_all_invalid (keys : List String) (valid : String → Bool)
    (initial : String) (hin : initial ∈ keys)
    (hall : ∀ k ∈ keys, valid k = false) :
    ∀ (fuel idx : Nat), next_working_aux keys valid initial idx fuel = initial := by
  intro fuel
  have hne : keys ≠ [] := List.ne_nil_of_mem hin
  induction fuel with
  | zero => intro idx; rfl
  | succ f ih =>
    intro idx
    rw [next_working_aux]
    have hv : ¬ valid (keys.getD (idx % keys.length) "") = true := by
      rw [hall _ (getD_mem_of_ne_nil keys hne idx)]
      exact Bool.false_ne_true
    rw [if_neg hv]
    by_cases hw : keys.getD ((idx + 1) % keys.length) "" = initial
    · rw [if_pos hw]; exact hw
    · rw [if_neg hw]; exact ih (idx + 1)

theorem next_working_aux_fuel_stable (keys : List String) (valid : String → Bool)
    (initial : String) :
    ∀ (f idx extra : Nat),
      keys.getD ((idx + f + 1) % keys.length) "" = initial →
      next_working_aux keys valid initial idx (extra + (f + 1)) =
        next_working_aux keys valid initial idx (f + 1) := by
  intro f
  induction f with
  | zero =>
    intro idx extra hwrap
    rw [show extra + (0 + 1) = extra + 0 + 1 from by omega]
    rw [next_working_aux, next_working_aux]
    by_cases hv : valid (keys.getD (idx % keys.length) "") = true
    · rw [if_pos hv, if_pos hv]
    · rw [show idx + 0 + 1 = idx + 1 from by omega] at hwrap
      rw [if_neg hv, if_neg hv, if_pos hwrap, if_pos hwrap]
  | succ f ih =>
    intro idx extra hwrap
    rw [show extra + (f + 1 + 1) = (extra + (f + 1)) + 1 from by omega]
    rw [next_working_aux, next_working_aux]
    by_cases hv : valid (keys.getD (idx % keys.length) "") = true
    · rw [if_pos hv, if_pos hv]
    · rw [if_neg hv, if_neg hv]
      by_cases hw : keys.getD ((idx + 1) % keys.length) "" = initial
      · rw [if_pos hw, if_pos hw]
      · rw [if_neg hw, if_neg hw]
        exact ih (idx + 1) extra
          (by rw [show idx + 1 + f + 1 = idx + (f + 1) + 1 from by omega]; exact hwrap)

theorem next_working_aux_len_stable (keys : List String) (valid : String → Bool)
    (hne : keys ≠ []) (i extra : Nat) :
    next_working_aux keys valid (keys.getD (i % keys.length) "") i
        (extra + keys.length) =
      next_working_aux keys valid (keys.getD (i % keys.length) "") i keys.length := by
  have hlen : 0 < keys.length := List.length_pos.mpr hne
  obtain ⟨n, hn⟩ : ∃ n, keys.length = n + 1 := ⟨keys.length - 1, by omega⟩
  have hwrap : keys.getD ((i + n + 1) % keys.length) "" =
      keys.getD (i % keys.length) "" := by
    rw [show i + n + 1 = i + keys.length from by omega, Nat.add_mod_right]
  rw [show extra + keys.length = extra + (n + 1) from by omega]
  rw [next_working_aux_fuel_stable keys valid _ n i extra hwrap]
  rw [show n + 1 = keys.length from hn.symm]

/-- C10: on a non-empty key list, `get_next_working_key` terminates within one
full traversal of the cycle (fuel beyond `keys.length` never changes the
result) and always returns a key of the list; when every key's failure count
is at least `MAX_FAILURES` it returns the key at which the cycle wrapped back
to its start — itself a key at or over the threshold — rather than
signalling no capacity. -/
theorem c10_get_next_working_key_total (keys : List String)
    (key_failure_counts : List (String × Nat)) (maxFailures i : Nat)
    (hne : keys ≠ []) :
    get_next_working_key keys (is_key_valid key_failure_counts maxFailures) i ∈ keys ∧
    (∀ extra, next_working_aux keys (is_key_valid key_failure_counts maxFailures)
        (keys.getD (i % keys.length) "") i (extra + keys.length) =
      get_next_working_key keys (is_key_valid key_failure_counts maxFailures) i) ∧
    ((∀ k ∈ keys, maxFailures ≤ (key_failure_counts.lookup k).getD 0) →
      get_next_working_key keys (is_key_valid key_failure_counts maxFailures) i =
        keys.getD (i % keys.length) "" ∧
      maxFailures ≤ (key_failure_counts.lookup
        (get_next_working_key keys
          (is_key_valid key_failure_counts maxFailures) i)).getD 0) := by
  have hin : keys.getD (i % keys.length) "" ∈ keys := getD_mem_of_ne_nil keys hne i
  refine ⟨next_working_aux_mem _ _ _ hin _ _, ?_, ?_⟩
  · intro extra
    exact next_working_aux_len_stable keys _ hne i extra
  · intro hall
    have hallv : ∀ k ∈ keys,
        is_key_valid key_failure_counts maxFailures k = false := by
      intro k hk
      have hk2 := hall k hk
      simp [is_key_valid]
      omega
    have hres : get_next_working_key keys
        (is_key_valid key_failure_counts maxFailures) i =
        keys.getD (i % keys.length) "" :=
      next_working_aux_all_invalid _ _ _ hin hallv _ _
    refine ⟨hres, ?_⟩
    rw [hres]
    exact hall _ hin

/-- Witness for C10: two keys, both at the failure threshold, cycle starting
at index 0: the call returns "a", the wrap-around key, which is over the
threshold. -/
theorem c10_get_next_working_key_total_witness :
    get_next_working_key ["a", "b"]
      (is_key_valid [("a", 3), ("b", 5)] 3) 0 = "a" ∧
    3 ≤ (([("a", 3), ("b", 5)] : List (String × Nat)).lookup
      (get_next_working_key ["a", "b"] (is_key_valid [("a", 3), ("b", 5)] 3) 0)).getD 0 := by
  have h := (c10_get_next_working_key_total ["a", "b"] [("a", 3), ("b", 5)] 3 0
    (by decide)).2.2 (by decide)
  exact ⟨h.1, h.2⟩
